import Mathlib

/-!
Verification of the marble-tournament application: a shallow embedding of the
round/tournament state machine in `App.tsx` and of the per-tick game logic,
resize handling and round spawning in `components/GameCanvas.tsx`.

Numeric simulation state (positions, velocities) is embedded over `ℚ`.
Randomness (`Math.random()` draws) and the engine-maintained speed magnitude
are passed in as explicit inputs, constrained by the ranges the source
guarantees.
-/

namespace MarbleGame

/-- JavaScript `String.prototype.replace` with a plain-string pattern:
replaces the first occurrence of `pat` (auxiliary, on character lists). -/
def replaceFirstAux (pat repl : List Char) : List Char → List Char
  | [] => []
  | c :: rest =>
    if (c :: rest).take pat.length = pat then repl ++ (c :: rest).drop pat.length
    else c :: replaceFirstAux pat repl rest

/-- JavaScript `s.replace(pat, repl)` for a plain-string `pat`: replaces the
first occurrence only. -/
def jsReplace (s pat repl : String) : String :=
  ⟨replaceFirstAux pat.data repl.data s.data⟩

/-- JavaScript `s.startsWith(pat)`. -/
def jsStartsWith (s pat : String) : Bool :=
  s.data.take pat.data.length == pat.data

/-- Contestant record (`Country` in `types.ts`). -/
structure Country where
  id : String
  code : String
  name : String
  color : String
  wins : Nat
  isChampion : Bool
deriving DecidableEq

/-- Champion record (`ChampionRecord` in `types.ts`); `wonAt` is the
`Date.now()` timestamp. -/
structure ChampionRecord where
  countryId : String
  name : String
  code : String
  wonAt : Nat
deriving DecidableEq

/-- The configuration constants the state machine in `App.tsx` reads. -/
structure AppConfig where
  WINS_TO_CHAMPION : Nat
  MAX_CHAMPIONS_SHOWN : Nat
deriving DecidableEq

/-- Modelled from the spec: the repository's constants module (exporting
`GAME_CONFIG`) is not among the source files, only its consumers are.
Spec §8 Scenario A fixes the champion win threshold at 4 and the champion
quota at 4, and the final screen announces that all 4 champions are crowned. -/
def GAME_CONFIG : AppConfig :=
  { WINS_TO_CHAMPION := 4, MAX_CHAMPIONS_SHOWN := 4 }

/-- Modelled from the spec: the repository's constants module (exporting
`INITIAL_COUNTRIES`) is not among the source files. Spec §8 Scenario A fixes
a roster of 8 contestants; ids are abbreviated here. -/
def INITIAL_COUNTRIES : List Country :=
  [⟨"a", "a", "A", "", 0, false⟩, ⟨"b", "b", "B", "", 0, false⟩,
   ⟨"c", "c", "C", "", 0, false⟩, ⟨"d", "d", "D", "", 0, false⟩,
   ⟨"e", "e", "E", "", 0, false⟩, ⟨"f", "f", "F", "", 0, false⟩,
   ⟨"g", "g", "G", "", 0, false⟩, ⟨"h", "h", "H", "", 0, false⟩]

/-! ## GameCanvas: balls and the per-tick `beforeUpdate` game logic -/

/-- A Matter.js circle body for one contestant. `speed` is the
engine-maintained magnitude of `(vx, vy)` (kept as a separate input since the
square root of a rational need not be rational); `fx, fy` accumulate forces
applied via `Matter.Body.applyForce`. -/
structure Ball where
  label : String
  px : ℚ
  py : ℚ
  vx : ℚ
  vy : ℚ
  speed : ℚ
  fx : ℚ
  fy : ℚ
deriving DecidableEq

/-- Viewport dimensions tracked in `sceneState`. -/
structure Scene where
  width : ℚ
  height : ℚ
deriving DecidableEq

/-- `const MAX_SPEED = 15` in the `beforeUpdate` handler. -/
def MAX_SPEED : ℚ := 15

/-- `const buffer = 150` in the `beforeUpdate` handler. -/
def BUFFER : ℚ := 150

/-- The velocity cap: if `ball.speed > MAX_SPEED`, set the velocity to
`normalise(velocity) * MAX_SPEED`, i.e. scale each component by
`MAX_SPEED / speed` (the engine keeps `speed` equal to the velocity
magnitude, and recomputes it after `setVelocity`). -/
def capVelocity (b : Ball) : Ball :=
  if b.speed > MAX_SPEED then
    { b with vx := MAX_SPEED / b.speed * b.vx, vy := MAX_SPEED / b.speed * b.vy,
             speed := MAX_SPEED }
  else b

/-- The minimal-speed failsafe: if `ball.speed < 0.5`, apply a force with a
random x component `(Math.random() - 0.5) * 0.001` (the draw `r ∈ [0, 1)` is
an input) and y component `-0.001`. Forces do not alter the velocity within
the current tick. -/
def nudge (r : ℚ) (b : Ball) : Ball :=
  if b.speed < 1 / 2 then
    { b with fx := b.fx + (r - 1 / 2) * (1 / 1000), fy := b.fy + (-1 / 1000 : ℚ) }
  else b

/-- Per-ball maintenance inside the `balls.forEach`: cap the velocity, then
nudge if too slow. -/
def maintainBall (r : ℚ) (b : Ball) : Ball :=
  nudge r (capVelocity b)

/-- The out-of-bounds test of the `beforeUpdate` handler:
`ball.position.y > height + buffer || ball.position.x < -buffer ||
ball.position.x > width + buffer`. -/
def outOfBounds (s : Scene) (b : Ball) : Bool :=
  decide (b.py > s.height + BUFFER) || decide (b.px < -BUFFER) ||
    decide (b.px > s.width + BUFFER)

/-- The removal region as the claim words it: outside the rectangle obtained
by expanding the viewport by the buffer margin on every side, including above
the top edge. Stated from the spec's words, for comparison with
`outOfBounds`. -/
def specOutOfBounds (s : Scene) (b : Ball) : Bool :=
  decide (b.px < -BUFFER) || decide (b.px > s.width + BUFFER) ||
    decide (b.py < -BUFFER) || decide (b.py > s.height + BUFFER)

/-- The `balls.forEach` body: maintain each ball (indexed random draws `rnd`),
remove it when out of bounds (recording that an elimination happened), and
otherwise collect it and its contestant id (`label.replace('ball-', '')`).
Returns (surviving balls, active ball ids, eliminationHappened). -/
def processBalls (s : Scene) (rnd : Nat → ℚ) : Nat → List Ball → List Ball × List String × Bool
  | _, [] => ([], [], false)
  | i, b :: rest =>
    let b' := maintainBall (rnd i) b
    let r := processBalls s rnd (i + 1) rest
    if outOfBounds s b' then (r.1, r.2.1, true)
    else (b' :: r.1, jsReplace b'.label "ball-" "" :: r.2.1, r.2.2)

/-- The maintained (capped and nudged) balls, before the out-of-bounds
filter. -/
def maintainedBalls (rnd : Nat → ℚ) : Nat → List Ball → List Ball
  | _, [] => []
  | i, b :: rest => maintainBall (rnd i) b :: maintainedBalls rnd (i + 1) rest

/-- The strict round-winner logic at the end of the `beforeUpdate` handler:
only when the round is not yet completed and exactly one ball id remains and
that id is truthy (non-empty), lock the round and emit the winner.
Returns (new completed flag, emitted round-win signal). -/
def winCheck (completed : Bool) (activeIds : List String) : Bool × Option String :=
  if completed then (completed, none)
  else if activeIds.length == 1 then
    if activeIds.headD "" == "" then (completed, none)
    else (true, some (activeIds.headD ""))
  else (completed, none)

/-- Result of one `beforeUpdate` tick. -/
structure TickResult where
  completed : Bool
  survivors : List Ball
  activeIds : List String
  elimEvent : Option (List String)
  winEvent : Option String
  rotation : ℚ
deriving DecidableEq

/-- One `beforeUpdate` tick: advance the arena rotation by the fixed
increment, run the per-ball maintenance and out-of-bounds removal, emit the
elimination event if any ball was removed, then run the round-winner check.
The ball list is the live body set after the physics step (an input, since
integration is the engine's). -/
def tick (rotSpeed : ℚ) (s : Scene) (rnd : Nat → ℚ) (rotation : ℚ)
    (completed : Bool) (balls : List Ball) : TickResult :=
  let p := processBalls s rnd 0 balls
  let w := winCheck completed p.2.1
  { completed := w.1, survivors := p.1, activeIds := p.2.1,
    elimEvent := if p.2.2 then some p.2.1 else none,
    winEvent := w.2, rotation := rotation + rotSpeed }

/-- Adversarial per-tick input: the scene, the random draws, and the live
ball set the physics step hands to the game-logic handler. -/
structure TickInput where
  scene : Scene
  rnd : Nat → ℚ
  balls : List Ball

/-- Number of round-win signals emitted over a sequence of ticks, threading
the completed flag and the rotation angle. A round is such a sequence started
with the flag reset to `false` by the spawn effect. -/
def roundWinCount (rotSpeed : ℚ) : Bool → ℚ → List TickInput → Nat
  | _, _, [] => 0
  | completed, rot, inp :: rest =>
    let t := tick rotSpeed inp.scene inp.rnd rot completed inp.balls
    (if t.winEvent.isSome then 1 else 0) + roundWinCount rotSpeed t.completed t.rotation rest

/-! ## GameCanvas: arena geometry and `handleResize` -/

/-- The arena boundary: center, radius, rotation angle, and the 60 wall
segments. The loop `for (a = 0; a < 2π; a += 2π/60)` places segment `k` at
polar angle `k·6°` in the arena frame and makes it the pass-through gap
exactly when that angle is below `GAME_CONFIG.GAP_SIZE_DEGREES`
(`a < gapSizeRad`); angles are represented in degrees so the comparison stays
rational. -/
structure Arena where
  cx : ℚ
  cy : ℚ
  radius : ℚ
  angle : ℚ
  parts : List (ℚ × Bool)
deriving DecidableEq

/-- `createArena(cx, cy, radius, angle)` of `GameCanvas.tsx` (gap width in
degrees is read from configuration). -/
def createArena (gapDeg cx cy radius angle : ℚ) : Arena :=
  { cx := cx, cy := cy, radius := radius, angle := angle,
    parts := (List.range 60).map (fun k => ((6 * k : ℚ), decide ((6 * k : ℚ) < gapDeg))) }

/-- The mutable scene/world data `handleResize` touches: the tracked scene
dimensions and derived geometry, the arena body, the ball bodies, and the
round-completed flag (listed to record that resize leaves it alone). -/
structure CanvasState where
  width : ℚ
  height : ℚ
  cx : ℚ
  cy : ℚ
  radius : ℚ
  rotation : ℚ
  arena : Option Arena
  balls : List Ball
  roundCompleted : Bool
deriving DecidableEq

/-- `handleResize` of `GameCanvas.tsx`: recompute center and radius from the
new container dimensions, read the current angle from the live arena body
(falling back to the tracked rotation), remove the old arena body and install
a freshly built one at the preserved angle. Ball bodies are not touched. -/
def handleResize (gapDeg w h : ℚ) (st : CanvasState) : CanvasState :=
  let cx := w / 2
  let cy := h / 2
  let headerClearance : ℚ := 160
  let minDimension := min w (h - headerClearance * (1 / 2))
  let radius := max 60 (minDimension / 2 - 20)
  let currentAngle :=
    match st.arena with
    | some a => a.angle
    | none => st.rotation
  { st with width := w, height := h, cx := cx, cy := cy, radius := radius,
            arena := some (createArena gapDeg cx cy radius currentAngle) }

/-! ## GameCanvas: the restart/spawn effect -/

/-- One round-spawn's random draws for one ball: `(ux, uy)` is the unit
vector `(cos θ, sin θ)` of the random angle `θ = Math.random() * 2π`
(abstracted as a unit vector so the embedding stays rational), `r01` the
`Math.random()` draw scaled onto the spawn radius, `v1, v2` the draws for the
initial velocity components, and `spd` the engine-maintained magnitude of
that initial velocity. -/
structure SpawnChoice where
  ux : ℚ
  uy : ℚ
  r01 : ℚ
  v1 : ℚ
  v2 : ℚ
  spd : ℚ
deriving DecidableEq

/-- The ranges `Math.random()` guarantees, plus the unit-vector constraint of
`(cos θ, sin θ)`. -/
def SpawnChoice.Valid (ch : SpawnChoice) : Prop :=
  ch.ux ^ 2 + ch.uy ^ 2 = 1 ∧ 0 ≤ ch.r01 ∧ ch.r01 < 1 ∧
    0 ≤ ch.v1 ∧ ch.v1 < 1 ∧ 0 ≤ ch.v2 ∧ ch.v2 < 1

/-- One spawned ball: position `center + r·(cos θ, sin θ)` with
`r = Math.random() * spawnRadius`, label `ball-${id}`, and initial velocity
components `(Math.random() - 0.5) * 8`. -/
def spawnBall (cx cy spawnRadius : ℚ) (ch : SpawnChoice) (c : Country) : Ball :=
  let r := ch.r01 * spawnRadius
  { label := "ball-" ++ c.id,
    px := cx + r * ch.ux, py := cy + r * ch.uy,
    vx := (ch.v1 - 1 / 2) * 8, vy := (ch.v2 - 1 / 2) * 8,
    speed := ch.spd, fx := 0, fy := 0 }

/-- The `eligibleCountries.forEach` loop of the spawn effect, with indexed
random draws. -/
def spawnAux (cx cy spawnRadius : ℚ) (chs : Nat → SpawnChoice) : Nat → List Country → List Ball
  | _, [] => []
  | i, c :: rest =>
    spawnBall cx cy spawnRadius (chs i) c :: spawnAux cx cy spawnRadius chs (i + 1) rest

/-- The balls created by the spawn effect: one per contestant with
`isChampion == false`, inside the spawn disk of radius
`Math.max(20, radius * 0.6)`. -/
def spawnRound (cx cy radius : ℚ) (chs : Nat → SpawnChoice) (countries : List Country) : List Ball :=
  let spawnRadius := max 20 (radius * (3 / 5))
  spawnAux cx cy spawnRadius chs 0 (countries.filter (fun c => !c.isChampion))

/-- The whole restart/spawn effect on the world's ball population: every body
whose label starts with `ball-` is removed, the new balls are added, the
round-completed flag is reset, and `onElimination` is called with the
eligible contestant ids. Returns (world balls, completed flag, reported
active ids). -/
def restartEffect (cx cy radius : ℚ) (chs : Nat → SpawnChoice)
    (oldBalls : List Ball) (countries : List Country) :
    List Ball × Bool × List String :=
  (oldBalls.filter (fun b => !jsStartsWith b.label "ball-") ++
     spawnRound cx cy radius chs countries,
   false,
   (countries.filter (fun c => !c.isChampion)).map (fun c => c.id))

/-! ## App.tsx: the tournament state machine composed with the canvas's
round lock -/

/-- A celebration task scheduled by `handleRoundWin`'s `setTimeout`: its
closure captures the updated roster and champion list computed at win time. -/
structure PendingTimer where
  updatedCountries : List Country
  updatedChampions : List ChampionRecord
deriving DecidableEq

/-- The composed state: the React state of `App.tsx`, the queue of scheduled
(not yet fired) celebration timeouts in scheduling order, and the canvas
side's `roundCompletedRef` together with the roster of the currently spawned
round. -/
structure SysState where
  countries : List Country
  canvasCountries : List Country
  champions : List ChampionRecord
  activeIds : List String
  restartTrigger : Nat
  lastWinner : Option String
  isGameOver : Bool
  pending : List PendingTimer
  roundCompleted : Bool
  canvasRoster : List String
deriving DecidableEq

/-- `INITIAL_COUNTRIES.map(c => ({ ...c, wins: 0, isChampion: false }))`. -/
def resetCountries (initial : List Country) : List Country :=
  initial.map (fun c => { c with wins := 0, isChampion := false })

/-- Ids of the contestants the spawn effect creates balls for. -/
def eligibleIds (l : List Country) : List String :=
  (l.filter (fun c => !c.isChampion)).map (fun c => c.id)

/-- `handleRoundWin` of `App.tsx`: ignore the signal when the game is over or
the winner id is not on the roster; otherwise increment the winner's wins,
promote it to champion when the new count reaches the threshold and it was
not already a champion (appending a `ChampionRecord`), record the last
winner, and schedule the 3-second celebration `setTimeout` capturing the
updated roster and champion list. -/
def handleRoundWin (cfg : AppConfig) (winnerId : String) (now : Nat) (s : SysState) : SysState :=
  if s.isGameOver then s
  else
    match s.countries.find? (fun c => c.id == winnerId) with
    | none => s
    | some winner =>
      let nextWins := winner.wins + 1
      let isNowChampion := decide (cfg.WINS_TO_CHAMPION ≤ nextWins)
      let isNewChampion := isNowChampion && !winner.isChampion
      let updatedCountries := s.countries.map (fun c =>
        if c.id == winnerId then
          { c with wins := nextWins, isChampion := c.isChampion || isNowChampion }
        else c)
      let updatedChampions :=
        if isNewChampion then
          s.champions ++
            [{ countryId := winner.id, name := winner.name, code := winner.code, wonAt := now }]
        else s.champions
      { s with countries := updatedCountries, champions := updatedChampions,
               lastWinner := some winnerId,
               pending := s.pending ++ [⟨updatedCountries, updatedChampions⟩] }

/-- `handleRestartGame` of `App.tsx`, together with the canvas spawn effect
its `setRestartTrigger` bump runs: reset the roster, clear champions and the
last winner, clear the game-over flag, respawn a fresh round (resetting the
round-completed flag and reporting the eligible ids). The code contains no
`clearTimeout`, so already-scheduled celebration timeouts stay pending. -/
def handleRestartGame (initial : List Country) (s : SysState) : SysState :=
  let reset := resetCountries initial
  { countries := reset, canvasCountries := reset, champions := [],
    activeIds := eligibleIds reset, restartTrigger := s.restartTrigger + 1,
    lastWinner := none, isGameOver := false,
    pending := s.pending,
    roundCompleted := false, canvasRoster := eligibleIds reset }

/-- Firing of the oldest scheduled celebration `setTimeout` (all share the
same 3-second delay, so they fire in scheduling order): clear the last
winner; if the captured champion list has reached the quota, set the
game-over flag; otherwise push the captured roster to the canvas and bump the
restart trigger, which reruns the spawn effect (resetting the round lock and
spawning from that roster). -/
def fireCelebrationTimer (cfg : AppConfig) (s : SysState) : SysState :=
  match s.pending with
  | [] => s
  | t :: rest =>
    if cfg.MAX_CHAMPIONS_SHOWN ≤ t.updatedChampions.length then
      { s with pending := rest, lastWinner := none, isGameOver := true }
    else
      { s with pending := rest, lastWinner := none,
               canvasCountries := t.updatedCountries,
               restartTrigger := s.restartTrigger + 1,
               roundCompleted := false,
               canvasRoster := eligibleIds t.updatedCountries,
               activeIds := eligibleIds t.updatedCountries }

/-- External events of the composed system: a round-win signal from the
canvas (possible only while the physics runner is live, the round is not yet
locked, and the surviving ball belongs to the spawned roster — the canvas
locks the round in the same step), a celebration timeout firing, an explicit
restart, and an elimination report. -/
inductive Ev where
  | canvasWin (id : String) (now : Nat)
  | timerFire
  | restart
  | elim (ids : List String)

/-- One transition of the composed system. -/
def step (cfg : AppConfig) (initial : List Country) (s : SysState) : Ev → SysState
  | .canvasWin id now =>
    if !s.roundCompleted && !s.isGameOver && s.canvasRoster.contains id && !(id == "") then
      handleRoundWin cfg id now { s with roundCompleted := true }
    else s
  | .timerFire => fireCelebrationTimer cfg s
  | .restart => handleRestartGame initial s
  | .elim ids => { s with activeIds := ids }

/-- The mount state: roster reset, no champions, no pending timeout, and the
first round spawned for the full roster. -/
def initState (initial : List Country) : SysState :=
  let reset := resetCountries initial
  { countries := reset, canvasCountries := reset, champions := [],
    activeIds := eligibleIds reset, restartTrigger := 0, lastWinner := none,
    isGameOver := false, pending := [], roundCompleted := false,
    canvasRoster := eligibleIds reset }

/-- The state reached after a sequence of events from the mount state. -/
def run (cfg : AppConfig) (initial : List Country) (evs : List Ev) : SysState :=
  evs.foldl (step cfg initial) (initState initial)

/-! ## Basic lemmas about the per-ball maintenance -/

lemma nudge_px (r : ℚ) (b : Ball) : (nudge r b).px = b.px := by
  unfold nudge; split <;> rfl

lemma nudge_py (r : ℚ) (b : Ball) : (nudge r b).py = b.py := by
  unfold nudge; split <;> rfl

lemma nudge_vx (r : ℚ) (b : Ball) : (nudge r b).vx = b.vx := by
  unfold nudge; split <;> rfl

lemma nudge_vy (r : ℚ) (b : Ball) : (nudge r b).vy = b.vy := by
  unfold nudge; split <;> rfl

lemma nudge_speed (r : ℚ) (b : Ball) : (nudge r b).speed = b.speed := by
  unfold nudge; split <;> rfl

lemma nudge_label (r : ℚ) (b : Ball) : (nudge r b).label = b.label := by
  unfold nudge; split <;> rfl

lemma capVelocity_px (b : Ball) : (capVelocity b).px = b.px := by
  unfold capVelocity; split <;> rfl

lemma capVelocity_py (b : Ball) : (capVelocity b).py = b.py := by
  unfold capVelocity; split <;> rfl

lemma capVelocity_label (b : Ball) : (capVelocity b).label = b.label := by
  unfold capVelocity; split <;> rfl

lemma maintainBall_px (r : ℚ) (b : Ball) : (maintainBall r b).px = b.px := by
  unfold maintainBall; rw [nudge_px, capVelocity_px]

lemma maintainBall_py (r : ℚ) (b : Ball) : (maintainBall r b).py = b.py := by
  unfold maintainBall; rw [nudge_py, capVelocity_py]

lemma maintainBall_label (r : ℚ) (b : Ball) : (maintainBall r b).label = b.label := by
  unfold maintainBall; rw [nudge_label, capVelocity_label]

lemma outOfBounds_maintainBall (s : Scene) (r : ℚ) (b : Ball) :
    outOfBounds s (maintainBall r b) = outOfBounds s b := by
  unfold outOfBounds; rw [maintainBall_px, maintainBall_py]

/-- Claim C8: after the per-tick maintenance the speed is capped at
`MAX_SPEED`; a ball over the cap is rescaled to the same direction (a
positive multiple of the old velocity) with magnitude exactly `MAX_SPEED`,
and a ball at or below the cap keeps its velocity. The hypotheses state the
engine's invariant that `speed` is the magnitude of the velocity. -/
theorem speed_cap_after_maintenance (r : ℚ) (b : Ball) (h0 : 0 ≤ b.speed)
    (h1 : b.speed ^ 2 = b.vx ^ 2 + b.vy ^ 2) :
    (maintainBall r b).speed ≤ MAX_SPEED ∧
    0 ≤ (maintainBall r b).speed ∧
    (maintainBall r b).speed ^ 2 = (maintainBall r b).vx ^ 2 + (maintainBall r b).vy ^ 2 ∧
    (MAX_SPEED < b.speed →
      (maintainBall r b).vx = MAX_SPEED / b.speed * b.vx ∧
      (maintainBall r b).vy = MAX_SPEED / b.speed * b.vy ∧
      0 < MAX_SPEED / b.speed ∧
      (maintainBall r b).vx ^ 2 + (maintainBall r b).vy ^ 2 = MAX_SPEED ^ 2 ∧
      (maintainBall r b).speed = MAX_SPEED) ∧
    (b.speed ≤ MAX_SPEED →
      (maintainBall r b).vx = b.vx ∧ (maintainBall r b).vy = b.vy ∧
      (maintainBall r b).speed = b.speed) := by
  have hvx : (maintainBall r b).vx = (capVelocity b).vx := nudge_vx _ _
  have hvy : (maintainBall r b).vy = (capVelocity b).vy := nudge_vy _ _
  have hsp : (maintainBall r b).speed = (capVelocity b).speed := nudge_speed _ _
  rw [hvx, hvy, hsp]
  unfold capVelocity
  by_cases h : b.speed > MAX_SPEED
  · rw [if_pos h]
    have hs0 : (0 : ℚ) < b.speed := lt_trans (by norm_num [MAX_SPEED]) h
    have hmag : (MAX_SPEED / b.speed * b.vx) ^ 2 + (MAX_SPEED / b.speed * b.vy) ^ 2
        = MAX_SPEED ^ 2 := by
      have expand : (MAX_SPEED / b.speed * b.vx) ^ 2 + (MAX_SPEED / b.speed * b.vy) ^ 2
          = (MAX_SPEED / b.speed) ^ 2 * (b.vx ^ 2 + b.vy ^ 2) := by ring
      rw [expand, ← h1]
      field_simp
    refine ⟨le_refl _, by norm_num [MAX_SPEED], hmag.symm, ?_, ?_⟩
    · exact fun _ => ⟨rfl, rfl, div_pos (by norm_num [MAX_SPEED]) hs0, hmag, rfl⟩
    · intro hle; exact absurd h (not_lt.mpr hle)
  · rw [if_neg h]
    refine ⟨not_lt.mp h, h0, h1, ?_, ?_⟩
    · intro hlt; exact absurd hlt h
    · exact fun _ => ⟨rfl, rfl, rfl⟩

/-- Witness for C8: a ball at speed 25 with velocity (15, 20) is rescaled and
capped. -/
theorem speed_cap_after_maintenance_witness :
    (maintainBall 0 ⟨"ball-x", 0, 0, 15, 20, 25, 0, 0⟩).speed ≤ MAX_SPEED ∧
    0 ≤ (maintainBall 0 ⟨"ball-x", 0, 0, 15, 20, 25, 0, 0⟩).speed ∧
    (maintainBall 0 ⟨"ball-x", 0, 0, 15, 20, 25, 0, 0⟩).speed ^ 2
      = (maintainBall 0 ⟨"ball-x", 0, 0, 15, 20, 25, 0, 0⟩).vx ^ 2
        + (maintainBall 0 ⟨"ball-x", 0, 0, 15, 20, 25, 0, 0⟩).vy ^ 2 ∧
    (MAX_SPEED < (25 : ℚ) →
      (maintainBall 0 ⟨"ball-x", 0, 0, 15, 20, 25, 0, 0⟩).vx = MAX_SPEED / 25 * 15 ∧
      (maintainBall 0 ⟨"ball-x", 0, 0, 15, 20, 25, 0, 0⟩).vy = MAX_SPEED / 25 * 20 ∧
      0 < MAX_SPEED / (25 : ℚ) ∧
      (maintainBall 0 ⟨"ball-x", 0, 0, 15, 20, 25, 0, 0⟩).vx ^ 2
        + (maintainBall 0 ⟨"ball-x", 0, 0, 15, 20, 25, 0, 0⟩).vy ^ 2 = MAX_SPEED ^ 2 ∧
      (maintainBall 0 ⟨"ball-x", 0, 0, 15, 20, 25, 0, 0⟩).speed = MAX_SPEED) ∧
    ((25 : ℚ) ≤ MAX_SPEED →
      (maintainBall 0 ⟨"ball-x", 0, 0, 15, 20, 25, 0, 0⟩).vx = 15 ∧
      (maintainBall 0 ⟨"ball-x", 0, 0, 15, 20, 25, 0, 0⟩).vy = 20 ∧
      (maintainBall 0 ⟨"ball-x", 0, 0, 15, 20, 25, 0, 0⟩).speed = 25) :=
  speed_cap_after_maintenance 0 ⟨"ball-x", 0, 0, 15, 20, 25, 0, 0⟩
    (by norm_num) (by norm_num)

/-! ## The round-winner lock (claim C1) -/

lemma tick_winEvent (rotSpeed : ℚ) (s : Scene) (rnd : Nat → ℚ) (rot : ℚ)
    (completed : Bool) (balls : List Ball) :
    (tick rotSpeed s rnd rot completed balls).winEvent
      = (winCheck completed (processBalls s rnd 0 balls).2.1).2 := rfl

lemma tick_completed (rotSpeed : ℚ) (s : Scene) (rnd : Nat → ℚ) (rot : ℚ)
    (completed : Bool) (balls : List Ball) :
    (tick rotSpeed s rnd rot completed balls).completed
      = (winCheck completed (processBalls s rnd 0 balls).2.1).1 := rfl

lemma tick_activeIds (rotSpeed : ℚ) (s : Scene) (rnd : Nat → ℚ) (rot : ℚ)
    (completed : Bool) (balls : List Ball) :
    (tick rotSpeed s rnd rot completed balls).activeIds
      = (processBalls s rnd 0 balls).2.1 := rfl

lemma tick_survivors (rotSpeed : ℚ) (s : Scene) (rnd : Nat → ℚ) (rot : ℚ)
    (completed : Bool) (balls : List Ball) :
    (tick rotSpeed s rnd rot completed balls).survivors
      = (processBalls s rnd 0 balls).1 := rfl

lemma tick_elimEvent (rotSpeed : ℚ) (s : Scene) (rnd : Nat → ℚ) (rot : ℚ)
    (completed : Bool) (balls : List Ball) :
    (tick rotSpeed s rnd rot completed balls).elimEvent
      = (if (processBalls s rnd 0 balls).2.2 then some (processBalls s rnd 0 balls).2.1
         else none) := rfl

lemma winCheck_true (ids : List String) : winCheck true ids = (true, none) := rfl

lemma winCheck_false_cases (ids : List String) :
    winCheck false ids = (false, none) ∨ ∃ w, winCheck false ids = (true, some w) := by
  unfold winCheck
  rw [if_neg (by simp : ¬(false = true))]
  by_cases h1 : (ids.length == 1) = true
  · rw [if_pos h1]
    by_cases h2 : (ids.headD "" == "") = true
    · rw [if_pos h2]; exact Or.inl rfl
    · rw [if_neg h2]; exact Or.inr ⟨_, rfl⟩
  · rw [if_neg h1]; exact Or.inl rfl

lemma roundWinCount_completed (rotSpeed : ℚ) (rot : ℚ) (inputs : List TickInput) :
    roundWinCount rotSpeed true rot inputs = 0 := by
  induction inputs generalizing rot with
  | nil => rfl
  | cons inp rest ih =>
    simp only [roundWinCount, tick_winEvent, tick_completed, winCheck_true,
      Option.isSome_none, Bool.false_eq_true, if_false, ih]

/-- Claim C1: the round-win signal is emitted at most once per round: over
any sequence of ticks that starts with the completed flag freshly reset to
`false` (as the spawn effect does at every round start), at most one
`onRoundWin` call happens; and whenever a tick emits the signal it sets the
completed flag `true` in the same step. -/
theorem round_win_emitted_at_most_once :
    (∀ (rotSpeed rot : ℚ) (inputs : List TickInput),
        roundWinCount rotSpeed false rot inputs ≤ 1) ∧
    (∀ (rotSpeed : ℚ) (s : Scene) (rnd : Nat → ℚ) (rot : ℚ) (completed : Bool)
        (balls : List Ball),
        (tick rotSpeed s rnd rot completed balls).winEvent.isSome = true →
        (tick rotSpeed s rnd rot completed balls).completed = true) := by
  constructor
  · intro rotSpeed rot inputs
    induction inputs generalizing rot with
    | nil => exact Nat.zero_le 1
    | cons inp rest ih =>
      simp only [roundWinCount, tick_winEvent, tick_completed]
      rcases winCheck_false_cases (processBalls inp.scene inp.rnd 0 inp.balls).2.1 with
        hwin | ⟨w, hwin⟩
      · simp only [hwin]
        simpa using ih _
      · simp only [hwin, Option.isSome_some, if_true, roundWinCount_completed]
        exact le_refl 1
  · intro rotSpeed s rnd rot completed balls h
    rw [tick_winEvent] at h
    rw [tick_completed]
    cases completed with
    | true => rw [winCheck_true]
    | false =>
      rcases winCheck_false_cases (processBalls s rnd 0 balls).2.1 with hwin | ⟨w, hwin⟩
      · simp only [hwin] at h; simp at h
      · simp only [hwin]

/-! ## Out-of-bounds removal (claims C6 and C7) -/

lemma processBalls_spec (s : Scene) (rnd : Nat → ℚ) :
    ∀ (i : Nat) (l : List Ball),
      processBalls s rnd i l =
        ((maintainedBalls rnd i l).filter (fun b => !outOfBounds s b),
         ((maintainedBalls rnd i l).filter (fun b => !outOfBounds s b)).map
           (fun b => jsReplace b.label "ball-" ""),
         (maintainedBalls rnd i l).any (fun b => outOfBounds s b)) := by
  intro i l
  induction l generalizing i with
  | nil => rfl
  | cons b rest ih =>
    simp only [processBalls, maintainedBalls, List.filter_cons, List.any_cons, ih]
    by_cases h : outOfBounds s (maintainBall (rnd i) b) = true
    · simp [h]
    · simp only [Bool.not_eq_true] at h
      simp [h]

lemma maintainedBalls_mem (rnd : Nat → ℚ) :
    ∀ (i : Nat) (l : List Ball) (b' : Ball), b' ∈ maintainedBalls rnd i l →
      ∃ j, ∃ b ∈ l, b' = maintainBall (rnd j) b := by
  intro i l
  induction l generalizing i with
  | nil => intro b' h; simp [maintainedBalls] at h
  | cons b rest ih =>
    intro b' h
    simp only [maintainedBalls, List.mem_cons] at h
    rcases h with h | h
    · exact ⟨i, b, List.mem_cons_self b rest, h⟩
    · obtain ⟨j, b0, hb0, hb'⟩ := ih (i + 1) b' h
      exact ⟨j, b0, List.mem_cons_of_mem b hb0, hb'⟩

/-- Amended claim C6: the per-tick check removes a ball exactly when
`outOfBounds` holds of its position — below the bottom edge, left of the left
edge, or right of the right edge of the viewport by more than the buffer
margin. There is no test against the top edge, so a ball above the viewport
is kept in the active set; the elimination report fires exactly when at least
one ball was removed, and the active ids are the surviving balls' ids. -/
theorem out_of_bounds_removal_characterization (rotSpeed : ℚ) (s : Scene)
    (rnd : Nat → ℚ) (rot : ℚ) (completed : Bool) (balls : List Ball) :
    (tick rotSpeed s rnd rot completed balls).survivors
        = (maintainedBalls rnd 0 balls).filter (fun b => !outOfBounds s b) ∧
    (tick rotSpeed s rnd rot completed balls).activeIds
        = ((tick rotSpeed s rnd rot completed balls).survivors).map
            (fun b => jsReplace b.label "ball-" "") ∧
    (tick rotSpeed s rnd rot completed balls).elimEvent
        = (if (maintainedBalls rnd 0 balls).any (fun b => outOfBounds s b) then
             some ((tick rotSpeed s rnd rot completed balls).activeIds)
           else none) := by
  rw [tick_survivors, tick_activeIds, tick_elimEvent, processBalls_spec]
  exact ⟨rfl, rfl, rfl⟩

/-- A ball far above the top of an 800 × 600 viewport: outside the
buffer-expanded rectangle the claim describes, yet kept by the code. -/
def ghostBall : Ball := ⟨"ball-x", 400, -200, 1, 0, 1, 0, 0⟩

lemma ghostBall_maintain (r : ℚ) : maintainBall r ghostBall = ghostBall := by
  unfold maintainBall capVelocity nudge ghostBall MAX_SPEED
  norm_num

/-- Counterexample to claim C6 as stated: the ball at (400, −200) has left
the viewport through the top by more than the 150-pixel buffer (so the
claimed expanded-rectangle test calls it eliminated), but the per-tick check
does not remove it: it stays in the active set and no elimination is
reported. -/
theorem top_edge_ball_not_removed :
    specOutOfBounds ⟨800, 600⟩ ghostBall = true ∧
    outOfBounds ⟨800, 600⟩ ghostBall = false ∧
    (tick 0 ⟨800, 600⟩ (fun _ => 0) 0 false [ghostBall]).survivors = [ghostBall] ∧
    (tick 0 ⟨800, 600⟩ (fun _ => 0) 0 false [ghostBall]).activeIds = ["x"] ∧
    (tick 0 ⟨800, 600⟩ (fun _ => 0) 0 false [ghostBall]).elimEvent = none := by
  have hoob : outOfBounds ⟨800, 600⟩ ghostBall = false := by
    unfold outOfBounds ghostBall BUFFER
    norm_num
  refine ⟨?_, hoob, ?_, ?_, ?_⟩
  · unfold specOutOfBounds ghostBall BUFFER
    norm_num
  · rw [tick_survivors, processBalls_spec]
    simp only [maintainedBalls, ghostBall_maintain, List.filter_cons, hoob]
    rfl
  · rw [tick_activeIds, processBalls_spec]
    simp only [maintainedBalls, ghostBall_maintain, List.filter_cons, hoob]
    simp only [Bool.not_false, if_pos]
    show List.map _ [ghostBall] = ["x"]
    simp only [List.map_cons, List.map_nil]
    decide
  · rw [tick_elimEvent, processBalls_spec]
    simp only [maintainedBalls, ghostBall_maintain, List.any_cons, List.any_nil, hoob]
    rfl

/-- Claim C7: when every ball of a nonempty live set is out of bounds in the
same tick (so the active count drops to zero before a winner was locked),
no round-win signal is emitted, while the elimination event fires with the
empty active-id list. -/
theorem zero_survivors_no_round_win (rotSpeed : ℚ) (s : Scene) (rnd : Nat → ℚ)
    (rot : ℚ) (balls : List Ball) (hne : balls ≠ [])
    (hall : ∀ b ∈ balls, outOfBounds s b = true) :
    (tick rotSpeed s rnd rot false balls).elimEvent = some [] ∧
    (tick rotSpeed s rnd rot false balls).winEvent = none := by
  have hallm : ∀ b' ∈ maintainedBalls rnd 0 balls, outOfBounds s b' = true := by
    intro b' hb'
    obtain ⟨j, b, hb, rfl⟩ := maintainedBalls_mem rnd 0 balls b' hb'
    rw [outOfBounds_maintainBall]
    exact hall b hb
  have hfilter : (maintainedBalls rnd 0 balls).filter (fun b => !outOfBounds s b) = [] := by
    rw [List.filter_eq_nil_iff]
    intro b' hb'
    simp [hallm b' hb']
  have hne' : maintainedBalls rnd 0 balls ≠ [] := by
    cases balls with
    | nil => exact absurd rfl hne
    | cons b rest => simp [maintainedBalls]
  have hany : (maintainedBalls rnd 0 balls).any (fun b => outOfBounds s b) = true := by
    cases hm : maintainedBalls rnd 0 balls with
    | nil => exact absurd hm hne'
    | cons b' rest' =>
      have : outOfBounds s b' = true := hallm b' (hm ▸ List.mem_cons_self b' rest')
      simp [this]
  constructor
  · rw [tick_elimEvent, processBalls_spec]
    simp only [hany, if_true, hfilter, List.map_nil]
  · rw [tick_winEvent, processBalls_spec]
    simp only [hfilter, List.map_nil]
    rfl

/-- Witness for C7: two balls below an 800 × 600 viewport are both removed
in one tick; the elimination event carries the empty list and no winner is
signalled. -/
theorem zero_survivors_no_round_win_witness :
    (tick 0 ⟨800, 600⟩ (fun _ => 0) 0 false
        [⟨"ball-x", 0, 1000, 0, 0, 1, 0, 0⟩, ⟨"ball-y", 0, 2000, 0, 0, 1, 0, 0⟩]).elimEvent
      = some [] ∧
    (tick 0 ⟨800, 600⟩ (fun _ => 0) 0 false
        [⟨"ball-x", 0, 1000, 0, 0, 1, 0, 0⟩, ⟨"ball-y", 0, 2000, 0, 0, 1, 0, 0⟩]).winEvent
      = none := by
  apply zero_survivors_no_round_win
  · simp
  · intro b hb
    simp only [List.mem_cons, List.mem_singleton, List.not_mem_nil, or_false] at hb
    rcases hb with rfl | rfl <;>
      · unfold outOfBounds BUFFER
        norm_num

/-! ## Resize (claim C9) -/

/-- Claim C9: `handleResize` rebuilds the arena body at the new center and
radius while reading the current angle off the live arena body, so the
rotation angle is continuous across the replacement; it does not touch the
ball bodies, the tracked rotation, or the round-completed flag. -/
theorem resize_preserves_balls_and_angle (gapDeg w h : ℚ) (st : CanvasState)
    (a : Arena) (ha : st.arena = some a) :
    (handleResize gapDeg w h st).balls = st.balls ∧
    (handleResize gapDeg w h st).roundCompleted = st.roundCompleted ∧
    (handleResize gapDeg w h st).rotation = st.rotation ∧
    (handleResize gapDeg w h st).arena
      = some (createArena gapDeg (w / 2) (h / 2) (max 60 (min w (h - 80) / 2 - 20)) a.angle) ∧
    (∀ a', (handleResize gapDeg w h st).arena = some a' → a'.angle = a.angle) ∧
    (handleResize gapDeg w h st).cx = w / 2 ∧
    (handleResize gapDeg w h st).cy = h / 2 ∧
    (handleResize gapDeg w h st).radius = max 60 (min w (h - 80) / 2 - 20) := by
  have harena : (handleResize gapDeg w h st).arena
      = some (createArena gapDeg (w / 2) (h / 2) (max 60 (min w (h - 80) / 2 - 20)) a.angle) := by
    unfold handleResize
    rw [ha]
    norm_num
  refine ⟨rfl, rfl, rfl, harena, ?_, rfl, rfl, ?_⟩
  · intro a' ha'
    rw [harena] at ha'
    cases ha'
    rfl
  · unfold handleResize
    norm_num

/-- Witness for C9 at a concrete state: resizing to 1000 × 700 preserves the
ball and the arena angle 2 while moving the center to (500, 350). -/
theorem resize_preserves_balls_and_angle_witness :
    (handleResize 15 1000 700 ⟨800, 600, 400, 300, 260, 2,
        some (createArena 15 400 300 260 2), [ghostBall], false⟩).balls = [ghostBall] ∧
    (handleResize 15 1000 700 ⟨800, 600, 400, 300, 260, 2,
        some (createArena 15 400 300 260 2), [ghostBall], false⟩).roundCompleted = false ∧
    (handleResize 15 1000 700 ⟨800, 600, 400, 300, 260, 2,
        some (createArena 15 400 300 260 2), [ghostBall], false⟩).rotation = 2 ∧
    (handleResize 15 1000 700 ⟨800, 600, 400, 300, 260, 2,
        some (createArena 15 400 300 260 2), [ghostBall], false⟩).arena
      = some (createArena 15 (1000 / 2) (700 / 2)
          (max 60 (min 1000 ((700 : ℚ) - 80) / 2 - 20)) (createArena 15 400 300 260 2).angle) ∧
    (∀ a', (handleResize 15 1000 700 ⟨800, 600, 400, 300, 260, 2,
        some (createArena 15 400 300 260 2), [ghostBall], false⟩).arena = some a' →
        a'.angle = (createArena 15 400 300 260 2).angle) ∧
    (handleResize 15 1000 700 ⟨800, 600, 400, 300, 260, 2,
        some (createArena 15 400 300 260 2), [ghostBall], false⟩).cx = 1000 / 2 ∧
    (handleResize 15 1000 700 ⟨800, 600, 400, 300, 260, 2,
        some (createArena 15 400 300 260 2), [ghostBall], false⟩).cy = 700 / 2 ∧
    (handleResize 15 1000 700 ⟨800, 600, 400, 300, 260, 2,
        some (createArena 15 400 300 260 2), [ghostBall], false⟩).radius
      = max 60 (min 1000 ((700 : ℚ) - 80) / 2 - 20) :=
  resize_preserves_balls_and_angle 15 1000 700
    ⟨800, 600, 400, 300, 260, 2, some (createArena 15 400 300 260 2), [ghostBall], false⟩
    (createArena 15 400 300 260 2) rfl

/-! ## Round spawning (claim C5) -/

lemma spawnAux_labels (cx cy spawnRadius : ℚ) (chs : Nat → SpawnChoice) :
    ∀ (i : Nat) (l : List Country),
      (spawnAux cx cy spawnRadius chs i l).map (fun b => b.label)
        = l.map (fun c => "ball-" ++ c.id) := by
  intro i l
  induction l generalizing i with
  | nil => rfl
  | cons c rest ih =>
    simp only [spawnAux, List.map_cons, ih]
    rfl

lemma spawnAux_mem (cx cy spawnRadius : ℚ) (chs : Nat → SpawnChoice) :
    ∀ (i : Nat) (l : List Country) (b : Ball), b ∈ spawnAux cx cy spawnRadius chs i l →
      ∃ j, ∃ c ∈ l, b = spawnBall cx cy spawnRadius (chs j) c := by
  intro i l
  induction l generalizing i with
  | nil => intro b h; simp [spawnAux] at h
  | cons c rest ih =>
    intro b h
    simp only [spawnAux, List.mem_cons] at h
    rcases h with h | h
    · exact ⟨i, c, List.mem_cons_self c rest, h⟩
    · obtain ⟨j, c0, hc0, hb⟩ := ih (i + 1) b h
      exact ⟨j, c0, List.mem_cons_of_mem c hc0, hb⟩

lemma string_append_left_cancel (p x y : String) (h : p ++ x = p ++ y) : x = y := by
  have hd : p.data ++ x.data = p.data ++ y.data := congrArg String.data h
  have hxy : x.data = y.data := List.append_cancel_left hd
  cases x
  cases y
  exact congrArg String.mk hxy

/-- Claim C5: the spawn effect clears every residual ball body, resets the
round lock, and creates exactly one ball per non-champion contestant (in
roster order, labelled with the contestant's id) and none for champions;
every spawned ball lies strictly inside the spawn disk centered on the arena
center with radius 0.6 of the arena radius (the `Math.max(20, …)` clamp is
inactive because `handleResize` keeps the arena radius at 60 or more), and
both initial velocity components lie in [−4, 4). -/
theorem spawn_round_spec (cx cy radius : ℚ) (chs : Nat → SpawnChoice)
    (oldBalls : List Ball) (countries : List Country)
    (hrad : 60 ≤ radius)
    (hold : ∀ b ∈ oldBalls, jsStartsWith b.label "ball-" = true)
    (hch : ∀ i, (chs i).Valid)
    (hids : (countries.map (fun c => c.id)).Nodup) :
    (restartEffect cx cy radius chs oldBalls countries).1
        = spawnRound cx cy radius chs countries ∧
    (restartEffect cx cy radius chs oldBalls countries).2.1 = false ∧
    (spawnRound cx cy radius chs countries).map (fun b => b.label)
        = (countries.filter (fun c => !c.isChampion)).map (fun c => "ball-" ++ c.id) ∧
    max (20 : ℚ) (radius * (3 / 5)) = radius * (3 / 5) ∧
    (∀ c ∈ countries, c.isChampion = true →
        ∀ b ∈ spawnRound cx cy radius chs countries, b.label ≠ "ball-" ++ c.id) ∧
    (∀ b ∈ spawnRound cx cy radius chs countries,
        (b.px - cx) ^ 2 + (b.py - cy) ^ 2 < (radius * (3 / 5)) ^ 2 ∧
        -4 ≤ b.vx ∧ b.vx < 4 ∧ -4 ≤ b.vy ∧ b.vy < 4) := by
  have hsr : max (20 : ℚ) (radius * (3 / 5)) = radius * (3 / 5) :=
    max_eq_right (by linarith)
  have hclear : (restartEffect cx cy radius chs oldBalls countries).1
      = spawnRound cx cy radius chs countries := by
    unfold restartEffect
    have : oldBalls.filter (fun b => !jsStartsWith b.label "ball-") = [] := by
      rw [List.filter_eq_nil_iff]
      intro b hb
      simp [hold b hb]
    rw [this, List.nil_append]
  have hlabels : (spawnRound cx cy radius chs countries).map (fun b => b.label)
      = (countries.filter (fun c => !c.isChampion)).map (fun c => "ball-" ++ c.id) := by
    unfold spawnRound
    exact spawnAux_labels _ _ _ _ _ _
  refine ⟨hclear, rfl, hlabels, hsr, ?_, ?_⟩
  · intro c hc hchamp b hb heq
    obtain ⟨j, d, hd, rfl⟩ := spawnAux_mem _ _ _ _ _ _ b hb
    have hdlabel : (spawnBall cx cy (max 20 (radius * (3 / 5))) (chs j) d).label
        = "ball-" ++ d.id := rfl
    rw [hdlabel] at heq
    have hide : d.id = c.id := string_append_left_cancel _ _ _ heq
    have hdmem : d ∈ countries := (List.mem_filter.mp hd).1
    have hdc : d = c := List.inj_on_of_nodup_map hids hdmem hc hide
    have hnc : (!d.isChampion) = true := (List.mem_filter.mp hd).2
    rw [hdc, hchamp] at hnc
    simp at hnc
  · intro b hb
    obtain ⟨j, d, hd, rfl⟩ := spawnAux_mem _ _ _ _ _ _ b hb
    obtain ⟨hu, hr0, hr1, hv10, hv11, hv20, hv21⟩ := hch j
    unfold spawnBall
    simp only
    rw [hsr]
    have hsr0 : (0 : ℚ) < radius * (3 / 5) := by linarith
    refine ⟨?_, by linarith, by linarith, by linarith, by linarith⟩
    have hexp : (cx + (chs j).r01 * (radius * (3 / 5)) * (chs j).ux - cx) ^ 2
        + (cy + (chs j).r01 * (radius * (3 / 5)) * (chs j).uy - cy) ^ 2
        = ((chs j).r01 * (radius * (3 / 5))) ^ 2 * ((chs j).ux ^ 2 + (chs j).uy ^ 2) := by
      ring
    rw [hexp, hu, mul_one]
    have h1 : 0 ≤ (chs j).r01 * (radius * (3 / 5)) := mul_nonneg hr0 (le_of_lt hsr0)
    have h2 : (chs j).r01 * (radius * (3 / 5)) < radius * (3 / 5) := by
      nlinarith
    nlinarith

/-- A concrete two-contestant roster (first member already a champion), a
residual ball and a fixed random draw, for the C5 witness. -/
def wRoster : List Country :=
  [⟨"a", "a", "A", "", 4, true⟩, ⟨"b", "b", "B", "", 0, false⟩]

/-- The residual ball of the C5 witness. -/
def wResidual : List Ball := [⟨"ball-z", 0, 0, 0, 0, 1, 0, 0⟩]

/-- The fixed random draw of the C5 witness. -/
def wChoice : SpawnChoice := ⟨3 / 5, 4 / 5, 1 / 2, 3 / 4, 1 / 4, 1⟩

/-- Witness for C5: spawning for a two-contestant roster whose first member
is already a champion, over a residual ball, at arena radius 100. -/
theorem spawn_round_spec_witness :
    (restartEffect 400 300 100 (fun _ => wChoice) wResidual wRoster).1
      = spawnRound 400 300 100 (fun _ => wChoice) wRoster ∧
    (restartEffect 400 300 100 (fun _ => wChoice) wResidual wRoster).2.1 = false ∧
    (spawnRound 400 300 100 (fun _ => wChoice) wRoster).map (fun b => b.label)
      = (wRoster.filter (fun c => !c.isChampion)).map (fun c => "ball-" ++ c.id) ∧
    max (20 : ℚ) (100 * (3 / 5)) = 100 * (3 / 5) ∧
    (∀ c ∈ wRoster, c.isChampion = true →
        ∀ b ∈ spawnRound 400 300 100 (fun _ => wChoice) wRoster,
          b.label ≠ "ball-" ++ c.id) ∧
    (∀ b ∈ spawnRound 400 300 100 (fun _ => wChoice) wRoster,
        (b.px - 400) ^ 2 + (b.py - 300) ^ 2 < ((100 : ℚ) * (3 / 5)) ^ 2 ∧
        -4 ≤ b.vx ∧ b.vx < 4 ∧ -4 ≤ b.vy ∧ b.vy < 4) :=
  spawn_round_spec 400 300 100 (fun _ => wChoice) wResidual wRoster
    (by norm_num)
    (by intro b hb
        simp only [wResidual, List.mem_singleton] at hb
        subst hb
        decide)
    (by intro i
        refine ⟨by norm_num [wChoice], by norm_num [wChoice], by norm_num [wChoice],
          by norm_num [wChoice], by norm_num [wChoice], by norm_num [wChoice],
          by norm_num [wChoice]⟩)
    (by decide)

/-! ## Round-win processing of the roster (claim C4) -/

/-- The per-contestant effect of processing a round win, as the claim words
it: the winner's wins grow by exactly one (promoting it when the threshold is
reached), everyone else is untouched. The theorem below proves the code's
update equal to mapping this function. -/
def winnerUpdate (cfg : AppConfig) (winnerId : String) (c : Country) : Country :=
  if c.id == winnerId then
    { c with wins := c.wins + 1,
             isChampion := c.isChampion || decide (cfg.WINS_TO_CHAMPION ≤ c.wins + 1) }
  else c

/-- Claim C4: on a round-win signal for a roster with distinct ids (when the
game is not over and the winner is found), the winner's wins grow by exactly
one, every other contestant's record is unchanged, no wins ever decrease,
and `isChampion` is sticky — once true it stays true. -/
theorem round_win_updates_winner_only (cfg : AppConfig) (winnerId : String)
    (now : Nat) (s : SysState) (w : Country)
    (hnd : (s.countries.map (fun c => c.id)).Nodup)
    (hg : s.isGameOver = false)
    (hw : s.countries.find? (fun c => c.id == winnerId) = some w) :
    (handleRoundWin cfg winnerId now s).countries
        = s.countries.map (winnerUpdate cfg winnerId) ∧
    (∀ c : Country, c.wins ≤ (winnerUpdate cfg winnerId c).wins) ∧
    (∀ c : Country, c.isChampion = true → (winnerUpdate cfg winnerId c).isChampion = true) ∧
    (∀ c : Country, (c.id == winnerId) = false → winnerUpdate cfg winnerId c = c) ∧
    (∀ c : Country, (c.id == winnerId) = true →
        (winnerUpdate cfg winnerId c).wins = c.wins + 1) := by
  have hwmem : w ∈ s.countries := List.mem_of_find?_eq_some hw
  have hwbeq : (w.id == winnerId) = true := by
    have hp := List.find?_some hw
    simpa using hp
  have hwid : w.id = winnerId := eq_of_beq hwbeq
  refine ⟨?_, ?_, ?_, ?_, ?_⟩
  · simp only [handleRoundWin, hg, Bool.false_eq_true, if_false, hw]
    apply List.map_congr_left
    intro c hc
    by_cases hcid : (c.id == winnerId) = true
    · have hcw : c = w :=
        List.inj_on_of_nodup_map hnd hc hwmem (by rw [eq_of_beq hcid, hwid])
      simp only [winnerUpdate, hcid, if_true]
      rw [← hcw]
    · simp only [winnerUpdate, hcid]
      simp [hcid]
  · intro c
    unfold winnerUpdate
    split
    · exact Nat.le_succ _
    · exact le_refl _
  · intro c hch
    unfold winnerUpdate
    split
    · simp [hch]
    · exact hch
  · intro c hcid
    unfold winnerUpdate
    simp [hcid]
  · intro c hcid
    unfold winnerUpdate
    simp [hcid]

/-- The concrete state of the C4 witness: contestant a has one win. -/
def wState : SysState :=
  { countries := [⟨"a", "a", "A", "", 1, false⟩, ⟨"b", "b", "B", "", 0, false⟩],
    canvasCountries := [⟨"a", "a", "A", "", 1, false⟩, ⟨"b", "b", "B", "", 0, false⟩],
    champions := [], activeIds := [], restartTrigger := 0, lastWinner := none,
    isGameOver := false, pending := [], roundCompleted := false, canvasRoster := [] }

/-- Witness for C4: contestant a wins a round in `wState`. -/
theorem round_win_updates_winner_only_witness :
    (handleRoundWin GAME_CONFIG "a" 0 wState).countries
        = wState.countries.map (winnerUpdate GAME_CONFIG "a") ∧
    (∀ c : Country, c.wins ≤ (winnerUpdate GAME_CONFIG "a" c).wins) ∧
    (∀ c : Country, c.isChampion = true → (winnerUpdate GAME_CONFIG "a" c).isChampion = true) ∧
    (∀ c : Country, (c.id == "a") = false → winnerUpdate GAME_CONFIG "a" c = c) ∧
    (∀ c : Country, (c.id == "a") = true →
        (winnerUpdate GAME_CONFIG "a" c).wins = c.wins + 1) :=
  round_win_updates_winner_only GAME_CONFIG "a" 0 wState ⟨"a", "a", "A", "", 1, false⟩
    (by decide) (by decide) (by decide)

/-! ## Champion bookkeeping (claims C10, C2, C3) -/

/-- The champion-list invariant carried through every transition: champion
records hold pairwise distinct contestant ids, and every recorded champion's
roster entries are flagged `isChampion`. -/
def ChampInv (s : SysState) : Prop :=
  (s.champions.map (fun r => r.countryId)).Nodup ∧
  ∀ r ∈ s.champions, ∀ c ∈ s.countries, c.id = r.countryId → c.isChampion = true

lemma champInv_of_eq (s s' : SysState) (hch : s'.champions = s.champions)
    (hco : s'.countries = s.countries) (h : ChampInv s) : ChampInv s' := by
  unfold ChampInv at h ⊢
  rw [hch, hco]
  exact h

lemma champInv_handleRoundWin (cfg : AppConfig) (winnerId : String) (now : Nat)
    (s : SysState) (h : ChampInv s) : ChampInv (handleRoundWin cfg winnerId now s) := by
  unfold handleRoundWin
  by_cases hg : s.isGameOver = true
  · rw [if_pos hg]; exact h
  · rw [if_neg hg]
    cases hw : s.countries.find? (fun c => c.id == winnerId) with
    | none => exact h
    | some w =>
      have hwmem : w ∈ s.countries := List.mem_of_find?_eq_some hw
      have hwid : w.id = winnerId := by
        have hp := List.find?_some hw
        exact eq_of_beq (by simpa using hp)
      simp only
      constructor
      · by_cases hnew :
            (decide (cfg.WINS_TO_CHAMPION ≤ w.wins + 1) && !w.isChampion) = true
        · rw [if_pos hnew]
          have hwnc : w.isChampion = false := by
            have hparts : decide (cfg.WINS_TO_CHAMPION ≤ w.wins + 1) = true ∧
                (!w.isChampion) = true := by simpa using hnew
            simpa using hparts.2
          have hnotin : w.id ∉ s.champions.map (fun r => r.countryId) := by
            intro hin
            obtain ⟨r, hr, hrid⟩ := List.mem_map.mp hin
            have := h.2 r hr w hwmem hrid.symm
            rw [hwnc] at this
            exact Bool.false_ne_true this
          simp only [List.map_append, List.map_cons, List.map_nil]
          rw [List.nodup_append]
          refine ⟨h.1, List.nodup_singleton _, ?_⟩
          intro x hx hx'
          simp only [List.mem_singleton] at hx'
          exact hnotin (hx' ▸ hx)
        · rw [if_neg hnew]
          exact h.1
      · intro r hr c hc hid
        obtain ⟨c0, hc0, rfl⟩ := List.mem_map.mp hc
        have hc0id : (if c0.id == winnerId then
            { c0 with wins := w.wins + 1,
                      isChampion := c0.isChampion || decide (cfg.WINS_TO_CHAMPION ≤ w.wins + 1) }
          else c0).id = c0.id := by
          split <;> rfl
        by_cases hnew :
            (decide (cfg.WINS_TO_CHAMPION ≤ w.wins + 1) && !w.isChampion) = true
        · rw [if_pos hnew] at hr
          rcases List.mem_append.mp hr with hrold | hrnew
          · have hold : c0.isChampion = true := h.2 _ hrold c0 hc0 (by rw [← hc0id]; exact hid)
            by_cases hcid : (c0.id == winnerId) = true
            · simp only [hcid, if_true, hold, Bool.true_or]
            · simp only [hcid, Bool.false_eq_true, if_false]
              exact hold

          · simp only [List.mem_singleton] at hrnew
            subst hrnew
            have hcid : (c0.id == winnerId) = true := by
              rw [hc0id] at hid
              simp only at hid
              exact beq_iff_eq.mpr (by rw [hid, hwid])
            have hnow : decide (cfg.WINS_TO_CHAMPION ≤ w.wins + 1) = true := by
              have hparts : decide (cfg.WINS_TO_CHAMPION ≤ w.wins + 1) = true ∧
                  (!w.isChampion) = true := by simpa using hnew
              exact hparts.1
            simp only [hcid, if_true, hnow, Bool.or_true]
        · rw [if_neg hnew] at hr
          have hold : c0.isChampion = true := h.2 _ hr c0 hc0 (by rw [← hc0id]; exact hid)
          by_cases hcid : (c0.id == winnerId) = true
          · simp only [hcid, if_true, hold, Bool.true_or]
          · simp only [hcid, Bool.false_eq_true, if_false]
            exact hold

lemma fireCelebrationTimer_champions (cfg : AppConfig) (s : SysState) :
    (fireCelebrationTimer cfg s).champions = s.champions := by
  obtain ⟨co, cc, ch, ai, rt, lw, go, pd, rc, cr⟩ := s
  cases pd with
  | nil => rfl
  | cons t rest =>
    by_cases hq : cfg.MAX_CHAMPIONS_SHOWN ≤ t.updatedChampions.length
    · simp [fireCelebrationTimer, hq]
    · simp [fireCelebrationTimer, hq]

lemma fireCelebrationTimer_countries (cfg : AppConfig) (s : SysState) :
    (fireCelebrationTimer cfg s).countries = s.countries := by
  obtain ⟨co, cc, ch, ai, rt, lw, go, pd, rc, cr⟩ := s
  cases pd with
  | nil => rfl
  | cons t rest =>
    by_cases hq : cfg.MAX_CHAMPIONS_SHOWN ≤ t.updatedChampions.length
    · simp [fireCelebrationTimer, hq]
    · simp [fireCelebrationTimer, hq]

lemma champInv_restart (initial : List Country) (s : SysState) :
    ChampInv (handleRestartGame initial s) := by
  constructor
  · simp [handleRestartGame]
  · intro r hr
    simp [handleRestartGame] at hr

lemma champInv_step (cfg : AppConfig) (initial : List Country) (s : SysState)
    (h : ChampInv s) (e : Ev) : ChampInv (step cfg initial s e) := by
  cases e with
  | canvasWin id now =>
    simp only [step]
    split
    · exact champInv_handleRoundWin cfg id now _ (champInv_of_eq s _ rfl rfl h)
    · exact h
  | timerFire =>
    exact champInv_of_eq s _ (fireCelebrationTimer_champions cfg s)
      (fireCelebrationTimer_countries cfg s) h
  | restart => exact champInv_restart initial s
  | elim ids => exact champInv_of_eq s _ rfl rfl h

lemma champInv_foldl (cfg : AppConfig) (initial : List Country) :
    ∀ (evs : List Ev) (s : SysState), ChampInv s →
      ChampInv (evs.foldl (step cfg initial) s) := by
  intro evs
  induction evs with
  | nil => intro s h; exact h
  | cons e rest ih =>
    intro s h
    exact ih _ (champInv_step cfg initial s h e)

/-- Claim C10: in every reachable state the champion records carry pairwise
distinct contestant ids — a record is appended only when the winner's
`isChampion` flag is still false, and the flag is set true in the same
update, so no contestant is recorded twice. Holds for any configuration and
any initial roster, over every event sequence. -/
theorem champion_ids_distinct (cfg : AppConfig) (initial : List Country) (evs : List Ev) :
    ((run cfg initial evs).champions.map (fun r => r.countryId)).Nodup := by
  have hinit : ChampInv (initState initial) := by
    constructor
    · simp [initState]
    · intro r hr
      simp [initState] at hr
  exact (champInv_foldl cfg initial evs (initState initial) hinit).1

/-- A round win by contestant `x` followed by the firing of its celebration
timeout (which respawns the next round). -/
def winFire (x : String) : List Ev := [Ev.canvasWin x 0, Ev.timerFire]

/-- Four rounds won by contestant `x`, each celebration timeout firing before
the next round, so `x` ends as a champion. -/
def fourWins (x : String) : List Ev := winFire x ++ winFire x ++ winFire x ++ winFire x

/-- Scenario B schedule: contestants a, b, c win four rounds each (three
champions crowned), d wins three more rounds, then d's fourth win crowns the
final champion, the user restarts during the 3-second celebration window, and
the still-pending celebration timeout fires afterwards. -/
def scenarioBTrace : List Ev :=
  fourWins "a" ++ fourWins "b" ++ fourWins "c" ++
    winFire "d" ++ winFire "d" ++ winFire "d" ++
    [Ev.canvasWin "d" 0, Ev.restart, Ev.timerFire]

set_option maxRecDepth 10000 in
/-- Claim C2 failing run: the code has no `clearTimeout`, so the celebration
timeout scheduled by the round win that crowned the fourth champion survives
the restart and fires on the freshly reset state, setting the game-over flag
although every win was cleared and the champion list is empty — the pending
round-win side effects do apply, and the state is not a freshly spawned
round in progress. -/
theorem restart_does_not_cancel_celebration_timer :
    (run GAME_CONFIG INITIAL_COUNTRIES scenarioBTrace).isGameOver = true ∧
    (run GAME_CONFIG INITIAL_COUNTRIES scenarioBTrace).champions = [] ∧
    (∀ c ∈ (run GAME_CONFIG INITIAL_COUNTRIES scenarioBTrace).countries, c.wins = 0) ∧
    (run GAME_CONFIG INITIAL_COUNTRIES
        (fourWins "a" ++ fourWins "b" ++ fourWins "c" ++
          winFire "d" ++ winFire "d" ++ winFire "d" ++
          [Ev.canvasWin "d" 0, Ev.restart])).isGameOver = false := by
  decide

/-- The double-elimination-free schedule that drives the champion count past
the quota: four round wins each immediately followed by a restart leave four
stale celebration timeouts pending; then a, b, c, d are each crowned over
sixteen rounds whose respawns are triggered by the stale (lagging) timeouts;
after d's crowning win locks the fourth champion, the next stale timeout —
captured before the fourth crowning — respawns a round anyway, and e collects
four more wins, becoming a fifth champion. All timeouts fire in scheduling
order, 3 seconds after their win, consistent with rounds roughly 0.7 seconds
apart. -/
def quotaBreakTrace : List Ev :=
  [Ev.canvasWin "h" 0, Ev.restart] ++ [Ev.canvasWin "h" 0, Ev.restart] ++
    [Ev.canvasWin "h" 0, Ev.restart] ++ [Ev.canvasWin "h" 0, Ev.restart] ++
    fourWins "a" ++ fourWins "b" ++ fourWins "c" ++ fourWins "d" ++
    winFire "e" ++ winFire "e" ++ winFire "e" ++ [Ev.canvasWin "e" 0]

set_option maxRecDepth 10000 in
/-- Claim C3 failing run: along `quotaBreakTrace` the champion list reaches
length 5, exceeding the quota of 4, while the game-over flag is still false —
reachable because restarts do not cancel pending celebration timeouts, and a
stale timeout respawns a round after the fourth champion was crowned. -/
theorem champion_quota_exceeded_via_stale_timer :
    (run GAME_CONFIG INITIAL_COUNTRIES quotaBreakTrace).champions.length = 5 ∧
    GAME_CONFIG.MAX_CHAMPIONS_SHOWN = 4 ∧
    (run GAME_CONFIG INITIAL_COUNTRIES quotaBreakTrace).isGameOver = false := by
  decide

end MarbleGame
